import Mathlib

/-!
Verification development for the renfincal household-finance tracker
(src/src/App.js).  The definitions below are a shallow embedding of the
recurring-transaction materializer, the balance aggregator, the net-worth,
savings and budget-variance calculators, the history auto-deletion and the
CSV import adapter.  Dates are modelled as calendar triples (year, month,
day) with month 1..12; the JavaScript code stores dates as ISO
"YYYY-MM-DD" strings whose string order coincides with the lexicographic
order used here.  JavaScript numbers are modelled as rationals: every
claim settled below concerns which entries enter which sum, not
floating-point rounding.
-/

/-- Calendar date, mirroring the (year, month, day) content of a JS `Date`
at day precision (the code normalizes times away with `setHours(0,0,0,0)`
and `toISOString().split('T')[0]`). -/
structure YMD where
  year : Nat
  month : Nat
  day : Nat
deriving DecidableEq, Repr

/-- Strict date order: lexicographic on (year, month, day).  This is the
order `new Date(a) < new Date(b)` computes for day-precision dates, and
also the Firestore string order on ISO "YYYY-MM-DD" keys. -/
def dateLt (a b : YMD) : Bool :=
  decide (a.year < b.year ∨ (a.year = b.year ∧
    (a.month < b.month ∨ (a.month = b.month ∧ a.day < b.day))))

/-- Gregorian leap-year rule, as implemented by the JS `Date` calendar. -/
def isLeap (y : Nat) : Bool :=
  decide ((y % 4 = 0 ∧ y % 100 ≠ 0) ∨ y % 400 = 0)

/-- Number of days of a month, as implemented by the JS `Date` calendar. -/
def daysInMonth (y m : Nat) : Nat :=
  if m = 2 then (if isLeap y then 29 else 28)
  else if m = 4 ∨ m = 6 ∨ m = 9 ∨ m = 11 then 30
  else 31

/-- Day-of-month overflow normalization performed by JS `Date.setMonth` /
`setFullYear`: a day past the end of the month rolls into the following
month (e.g. Feb 31 becomes Mar 3).  A single carry step suffices because
the overflow is at most three days. -/
def normDay (y m d : Nat) : YMD :=
  if d ≤ daysInMonth y m then ⟨y, m, d⟩
  else if m = 12 then ⟨y + 1, 1, d - daysInMonth y m⟩
  else ⟨y, m + 1, d - daysInMonth y m⟩

/-- `nextDueDate.setMonth(nextDueDate.getMonth() + 1)`: advance one
calendar month preserving the day where possible, with JS rollover
semantics. -/
def addOneMonth (dt : YMD) : YMD :=
  if dt.month = 12 then normDay (dt.year + 1) 1 dt.day
  else normDay dt.year (dt.month + 1) dt.day

/-- `nextDueDate.setFullYear(nextDueDate.getFullYear() + 1)`: advance one
calendar year with JS rollover semantics (Feb 29 of a leap year becomes
Mar 1 of the next year). -/
def addOneYear (dt : YMD) : YMD :=
  normDay (dt.year + 1) dt.month dt.day

/-- One pass of the body of the `while` loop in
`processRecurringTransactions` (App.js lines 101-105): `monthly` adds one
month, `yearly` adds one year, any other frequency string leaves the
cursor unchanged (both `if` branches are skipped). -/
def advanceDate (freq : String) (d : YMD) : YMD :=
  if freq = "monthly" then addOneMonth d
  else if freq = "yearly" then addOneYear d
  else d

/-- A calendar-valid date: month in 1..12 and day within the month. -/
def validDate (d : YMD) : Bool :=
  decide (1 ≤ d.month ∧ d.month ≤ 12 ∧ 1 ≤ d.day ∧
    d.day ≤ daysInMonth d.year d.month)

/-- The catch-up `while` loop of `processRecurringTransactions`
(App.js lines 100-116), run with explicit fuel: starting from the cursor
`c`, repeatedly advance one period; every advanced value still strictly
before `today` is materialized (collected in order); the first advanced
value not strictly before `today` ends the loop and is not collected.
`some l` means the loop terminated within `fuel` iterations emitting `l`;
`none` means `fuel` iterations did not finish the loop (the JS loop would
still be running). -/
def catchUp (freq : String) (today : YMD) : Nat → YMD → Option (List YMD)
  | 0, c => if dateLt c today then none else some []
  | fuel + 1, c =>
    if dateLt c today then
      let c' := advanceDate freq c
      if dateLt c' today then
        (catchUp freq today fuel c').map (fun l => c' :: l)
      else
        some []
    else
      some []

/-- Iterated period advance: `advIter freq k c` is the cursor after `k`
period advances from `c`. -/
def advIter (freq : String) : Nat → YMD → YMD
  | 0, c => c
  | k + 1, c => advanceDate freq (advIter freq k c)

example :
    catchUp "monthly" ⟨2024, 5, 1⟩ 10 ⟨2024, 1, 15⟩ =
      some [⟨2024, 2, 15⟩, ⟨2024, 3, 15⟩, ⟨2024, 4, 15⟩] := by decide

example : catchUp "weekly" ⟨2024, 5, 1⟩ 50 ⟨2024, 1, 15⟩ = none := by decide

example : addOneMonth ⟨2024, 1, 31⟩ = ⟨2024, 3, 2⟩ := by decide

example : addOneYear ⟨2024, 2, 29⟩ = ⟨2025, 3, 1⟩ := by decide

/-- Recurring-entry payload as built by `RecurringPage.handleSubmit`
(App.js line 504): the embedded transaction- or income-shaped fields sans
date.  An expense payload carries `category`/`payer`, an income payload
carries `source`; unused fields of the other shape are irrelevant to every
claim and simply carried along. -/
structure Details where
  dtype : String
  category : String
  source : String
  payer : String
  amount : ℚ
  currency : String
  description : String
deriving DecidableEq, Repr

/-- Recurring template document (`recurring` collection), as created by
`RecurringPage.handleSubmit` (App.js line 505). -/
structure Template where
  id : String
  ttype : String
  frequency : String
  startDate : YMD
  lastProcessed : Option YMD
  details : Details
deriving DecidableEq, Repr

/-- `item.lastProcessed ? new Date(item.lastProcessed) : new Date(item.startDate)`
(App.js line 97). -/
def initialCursor (t : Template) : YMD :=
  t.lastProcessed.getD t.startDate

/-- `item.type === 'income' ? 'incomes' : 'transactions'` (App.js line 108). -/
def collectionOf (t : Template) : String :=
  if t.ttype = "income" then "incomes" else "transactions"

/-- An operation queued on the Firestore write batch by
`processRecurringTransactions`: either `batch.set` of a new materialized
document `{...item.details, date}` into a collection (App.js lines
109-111), or `batch.update` of a template's `lastProcessed` cursor
(App.js lines 113-114). -/
inductive BatchOp where
  | setEntry (coll : String) (details : Details) (date : YMD)
  | updateCursor (templateId : String) (newLastProcessed : YMD)
deriving DecidableEq, Repr

/-- The two batch operations the loop body queues for one materialized
occurrence of a template: the new document followed by the cursor update
(App.js lines 107-115). -/
def opsFor (t : Template) (dates : List YMD) : List BatchOp :=
  dates.flatMap (fun d =>
    [BatchOp.setEntry (collectionOf t) t.details d,
     BatchOp.updateCursor t.id d])

/-- One template's pass through the catch-up loop: the list of occurrence
dates materialized for it (App.js lines 96-116). -/
def processTemplate (today : YMD) (fuel : Nat) (t : Template) : Option (List YMD) :=
  catchUp t.frequency today fuel (initialCursor t)

/-- The template as updated by its queued cursor writes: the batch updates
`lastProcessed` once per occurrence, so after the batch commits the
template carries the last materialized date (or is untouched when nothing
was materialized). -/
def updatedTemplate (t : Template) (dates : List YMD) : Template :=
  match dates.getLast? with
  | none => t
  | some d => { t with lastProcessed := some d }

/-- The per-item `for` loop of `processRecurringTransactions` (App.js
line 96): run the catch-up loop for every template in order, pairing each
template with its materialized dates.  `none` if any template's loop did
not finish within `fuel` iterations (the JS run would never reach
`batch.commit()`). -/
def runAll (today : YMD) (fuel : Nat) : List Template → Option (List (Template × List YMD))
  | [] => some []
  | t :: ts =>
    match processTemplate today fuel t, runAll today fuel ts with
    | some l, some ps => some ((t, l) :: ps)
    | _, _ => none

/-- The full contents of the single write batch built by one
`processRecurringTransactions` run, in queuing order (App.js lines
92-117). -/
def batchOps (today : YMD) (fuel : Nat) (ts : List Template) : Option (List BatchOp) :=
  (runAll today fuel ts).map (fun ps => (ps.map (fun p => opsFor p.1 p.2)).flatten)

/-- The per-user document store as seen by the materializer: the
`transactions` and `incomes` collections (documents are details plus a
date) and the `recurring` collection. -/
structure MatStore where
  transactions : List (Details × YMD)
  incomes : List (Details × YMD)
  templates : List Template
deriving DecidableEq, Repr

/-- Effect of a single queued batch operation on the store: `setEntry`
appends the new document to its collection, `updateCursor` overwrites the
`lastProcessed` field of the matching template. -/
def applyOp (s : MatStore) (op : BatchOp) : MatStore :=
  match op with
  | BatchOp.setEntry coll det date =>
    if coll = "incomes" then { s with incomes := s.incomes ++ [(det, date)] }
    else { s with transactions := s.transactions ++ [(det, date)] }
  | BatchOp.updateCursor tid d =>
    { s with templates := s.templates.map (fun t =>
        if t.id = tid then { t with lastProcessed := some d } else t) }

/-- Apply a whole batch in order. -/
def applyOps (s : MatStore) (ops : List BatchOp) : MatStore :=
  ops.foldl applyOp s

/-- Modelled from the spec: `batch.commit()` (App.js line 118) is
Firestore's atomic multi-document write, which is not part of this
repository; per §4.1 step 5 and §7 of the specification the batch "either
all succeeds or none does" and "a failed batch must leave all templates
and collections unchanged".  A successful commit applies every queued
operation, a failed commit applies none; if the catch-up loop never
terminates the commit is never reached and the store is also unchanged. -/
def runMaterializer (today : YMD) (fuel : Nat) (success : Bool) (s : MatStore) : MatStore :=
  match batchOps today fuel s.templates with
  | none => s
  | some ops => if success then applyOps s ops else s


/-- Shifting one advance into the iteration count. -/
lemma advIter_shift (freq : String) : ∀ (n : Nat) (c : YMD),
    advIter freq n (advanceDate freq c) = advIter freq (n + 1) c := by
  intro n
  induction n with
  | zero => intro c; rfl
  | succ n ih => intro c; simp only [advIter, ih]

/-- Characterization of one terminated pass of the catch-up loop: the
emitted list consists of the successive period advances of the cursor (the
first candidate is the cursor advanced once), every emitted date is
strictly before `today`, the last emitted date is where the cursor ends
up, and the next advance past the emitted list is not strictly before
`today` (it is neither materialized nor persisted). -/
lemma catchUp_spec (freq : String) (today : YMD) :
    ∀ (fuel : Nat) (c : YMD) (l : List YMD), catchUp freq today fuel c = some l →
      (∀ i (h : i < l.length),
          l.get ⟨i, h⟩ = advIter freq (i + 1) c ∧ dateLt (l.get ⟨i, h⟩) today = true)
      ∧ l.getLastD c = advIter freq l.length c
      ∧ (dateLt c today = true → dateLt (advIter freq (l.length + 1) c) today = false) := by
  intro fuel
  induction fuel with
  | zero =>
    intro c l h
    by_cases hc : dateLt c today = true
    · simp [catchUp, hc] at h
    · simp [catchUp, hc] at h
      subst h
      refine ⟨by intro i hi; simp at hi, rfl, by intro hcon; simp [hc] at hcon⟩
  | succ fuel ih =>
    intro c l h
    by_cases hc : dateLt c today = true
    · by_cases hc' : dateLt (advanceDate freq c) today = true
      · simp only [catchUp, hc, if_true, hc'] at h
        cases hcall : catchUp freq today fuel (advanceDate freq c) with
        | none => simp [hcall] at h
        | some l' =>
          simp [hcall] at h
          subst h
          obtain ⟨ih1, ih2, ih3⟩ := ih (advanceDate freq c) l' hcall
          refine ⟨?_, ?_, ?_⟩
          · intro i hi
            match i with
            | 0 =>
              refine ⟨?_, by simpa using hc'⟩
              simp [advIter]
            | Nat.succ j =>
              have hj : j < l'.length := by simpa using hi
              have := ih1 j hj
              simp only [List.get_cons_succ]
              refine ⟨?_, this.2⟩
              rw [this.1, advIter_shift]
          · rw [List.getLastD_cons, ih2, List.length_cons, advIter_shift]
          · intro _
            have := ih3 hc'
            rw [advIter_shift] at this
            simpa [List.length_cons] using this
      · rw [Bool.not_eq_true] at hc'
        simp [catchUp, hc, hc'] at h
        subst h
        refine ⟨by intro i hi; simp at hi, rfl, ?_⟩
        intro _
        simp only [List.length_nil, Nat.zero_add, advIter]
        simpa using hc'
    · rw [Bool.not_eq_true] at hc
      simp [catchUp, hc] at h
      subst h
      refine ⟨by intro i hi; simp at hi, rfl, ?_⟩
      intro hcon
      rw [hcon] at hc
      exact absurd hc (by simp)

/-- Concrete recurring expense payload used in the worked examples. -/
def exDetails : Details :=
  ⟨"expense", "Rent/Mortgage", "", "Husband", 100, "EUR", "rent"⟩

/-- Concrete monthly template: startDate 2024-01-15, never processed. -/
def exTemplate : Template :=
  ⟨"r1", "expense", "monthly", ⟨2024, 1, 15⟩, none, exDetails⟩

/-- C1: a monthly template with startDate 2024-01-15 and null
lastProcessed, run with today = 2024-05-01, materializes exactly the three
documents dated 2024-02-15, 2024-03-15 and 2024-04-15 and leaves the
persisted cursor at 2024-04-15; and in general a terminated catch-up pass
emits exactly the successive period advances of the cursor that are
strictly before today (the first candidate is the cursor advanced one
period), ends the cursor at the last emitted date, and the first advanced
date not strictly before today is neither materialized nor persisted. -/
theorem claim_C1_multi_period_catchup :
    (runMaterializer ⟨2024, 5, 1⟩ 10 true ⟨[], [], [exTemplate]⟩ =
      ⟨[(exDetails, ⟨2024, 2, 15⟩), (exDetails, ⟨2024, 3, 15⟩),
        (exDetails, ⟨2024, 4, 15⟩)], [],
       [{ exTemplate with lastProcessed := some ⟨2024, 4, 15⟩ }]⟩)
    ∧ ∀ (freq : String) (today : YMD) (fuel : Nat) (c : YMD) (l : List YMD),
        catchUp freq today fuel c = some l →
          (∀ i (h : i < l.length),
              l.get ⟨i, h⟩ = advIter freq (i + 1) c ∧
              dateLt (l.get ⟨i, h⟩) today = true)
          ∧ l.getLastD c = advIter freq l.length c
          ∧ (dateLt c today = true →
              dateLt (advIter freq (l.length + 1) c) today = false) := by
  exact ⟨by decide, fun freq today => catchUp_spec freq today⟩

/-- Witness for C1 at the concrete template of the claim. -/
theorem claim_C1_multi_period_catchup_witness :
    ([⟨2024, 2, 15⟩, ⟨2024, 3, 15⟩, (⟨2024, 4, 15⟩ : YMD)].getLastD ⟨2024, 1, 15⟩ =
      advIter "monthly" 3 ⟨2024, 1, 15⟩)
    ∧ dateLt (advIter "monthly" 4 ⟨2024, 1, 15⟩) ⟨2024, 5, 1⟩ = false := by
  have h := claim_C1_multi_period_catchup.2 "monthly" ⟨2024, 5, 1⟩ 10 ⟨2024, 1, 15⟩
    [⟨2024, 2, 15⟩, ⟨2024, 3, 15⟩, ⟨2024, 4, 15⟩] (by decide)
  exact ⟨h.2.1, h.2.2 (by decide)⟩

/-- A month advance strictly increases the date, for every input. -/
lemma dateLt_addOneMonth (d : YMD) : dateLt d (addOneMonth d) = true := by
  unfold addOneMonth normDay
  split <;> split <;> (try split) <;> simp [dateLt] <;> omega

/-- A year advance strictly increases the date, for every input. -/
lemma dateLt_addOneYear (d : YMD) : dateLt d (addOneYear d) = true := by
  unfold addOneYear normDay
  split <;> (try split) <;> simp [dateLt] <;> omega

/-- A month advance strictly increases the month counter 12*year+month. -/
lemma toMonths_addOneMonth (d : YMD) :
    12 * d.year + d.month < 12 * (addOneMonth d).year + (addOneMonth d).month := by
  unfold addOneMonth normDay
  split <;> split <;> (try split) <;> simp <;> omega

/-- A month advance keeps the month within bound 12. -/
lemma month_le_addOneMonth (d : YMD) (h : d.month ≤ 12) :
    (addOneMonth d).month ≤ 12 := by
  unfold addOneMonth normDay
  split <;> split <;> (try split) <;> simp <;> omega

/-- A year advance strictly increases the year, for every input. -/
lemma year_lt_addOneYear (d : YMD) : d.year < (addOneYear d).year := by
  unfold addOneYear normDay
  split <;> (try split) <;> simp <;> omega

/-- A date past the target month counter is not strictly before it. -/
lemma dateLt_false_of_toMonths_lt (d t : YMD) (hd : d.month ≤ 12)
    (ht : 1 ≤ t.month) (h : 12 * t.year + t.month < 12 * d.year + d.month) :
    dateLt d t = false := by
  simp only [dateLt, decide_eq_false_iff_not]
  omega

/-- A date in a later year is not strictly before the target. -/
lemma dateLt_false_of_year_lt (d t : YMD) (h : t.year < d.year) :
    dateLt d t = false := by
  simp only [dateLt, decide_eq_false_iff_not]
  omega

/-- Generic termination of the catch-up loop from a strictly increasing
measure that eventually forces the guard false. -/
lemma catchUp_isSome_of_measure (freq : String) (t : YMD) (mu : YMD → Nat)
    (P : YMD → Prop)
    (hP : ∀ d, P d → P (advanceDate freq d))
    (hmu : ∀ d, P d → mu d < mu (advanceDate freq d))
    (hstop : ∀ d, P d → mu t < mu d → dateLt d t = false) :
    ∀ (k : Nat) (c : YMD), P c → mu t < mu c + k →
      (catchUp freq t k c).isSome = true := by
  intro k
  induction k with
  | zero =>
    intro c hPc hk
    have hg : dateLt c t = false := hstop c hPc (by omega)
    simp [catchUp, hg]
  | succ k ih =>
    intro c hPc hk
    by_cases hc : dateLt c t = true
    · have hPc2 := hP c hPc
      have hmuc := hmu c hPc
      by_cases hc2 : dateLt (advanceDate freq c) t = true
      · have hrec := ih (advanceDate freq c) hPc2 (by omega)
        simp only [catchUp, hc, if_true, hc2]
        simpa using hrec
      · rw [Bool.not_eq_true] at hc2
        simp [catchUp, hc, hc2]
    · rw [Bool.not_eq_true] at hc
      simp [catchUp, hc]

/-- With a frozen cursor the loop guard never changes, so no amount of
fuel finishes the loop. -/
lemma catchUp_none_of_fixed (freq : String) (t c : YMD)
    (hadv : advanceDate freq c = c) (hc : dateLt c t = true) :
    ∀ n, catchUp freq t n c = none := by
  intro n
  induction n with
  | zero => simp [catchUp, hc]
  | succ n ih => simp [catchUp, hc, hadv, ih]

/-- C10: the catch-up loop of `processRecurringTransactions` terminates
for every template of frequency `monthly` or `yearly` and calendar-valid
dates (each iteration strictly advances the cursor); for any other
frequency value whose cursor starts strictly before today, the body never
advances the cursor and the loop never terminates, whatever the fuel. -/
theorem claim_C10_loop_termination (freq : String) (today c : YMD) :
    ((freq = "monthly" ∨ freq = "yearly") → validDate c = true →
        validDate today = true →
        dateLt c (advanceDate freq c) = true ∧
        ∃ n, (catchUp freq today n c).isSome = true)
    ∧ (freq ≠ "monthly" → freq ≠ "yearly" → dateLt c today = true →
        advanceDate freq c = c ∧ ∀ n, catchUp freq today n c = none) := by
  constructor
  · rintro (hf | hf) hc ht <;> subst hf
    · have hcm : c.month ≤ 12 := by
        simp only [validDate, decide_eq_true_eq] at hc; omega
      have htm : 1 ≤ today.month := by
        simp only [validDate, decide_eq_true_eq] at ht; omega
      refine ⟨by simpa [advanceDate] using dateLt_addOneMonth c, ?_⟩
      refine ⟨12 * today.year + today.month + 1, ?_⟩
      refine catchUp_isSome_of_measure "monthly" today
        (fun d => 12 * d.year + d.month) (fun d => d.month ≤ 12)
        ?_ ?_ ?_ _ c hcm
        (by show 12 * today.year + today.month <
              12 * c.year + c.month + (12 * today.year + today.month + 1)
            omega)
      · intro d hd
        simpa [advanceDate] using month_le_addOneMonth d hd
      · intro d _
        simpa [advanceDate] using toMonths_addOneMonth d
      · intro d hd hlt
        exact dateLt_false_of_toMonths_lt d today hd htm hlt
    · refine ⟨by simpa [advanceDate] using dateLt_addOneYear c, ?_⟩
      refine ⟨today.year + 1, ?_⟩
      refine catchUp_isSome_of_measure "yearly" today
        (fun d => d.year) (fun _ => True) (fun _ _ => trivial)
        ?_ ?_ _ c trivial
        (by show today.year < c.year + (today.year + 1); omega)
      · intro d _
        simpa [advanceDate] using year_lt_addOneYear d
      · intro d _ hlt
        exact dateLt_false_of_year_lt d today hlt
  · intro h1 h2 hc
    have hadv : advanceDate freq c = c := by simp [advanceDate, h1, h2]
    exact ⟨hadv, catchUp_none_of_fixed freq today c hadv hc⟩

/-- Witness for C10: the monthly example terminates, a "weekly" template
behind today never does. -/
theorem claim_C10_loop_termination_witness :
    (dateLt ⟨2024, 1, 15⟩ (advanceDate "monthly" ⟨2024, 1, 15⟩) = true ∧
      ∃ n, (catchUp "monthly" ⟨2024, 5, 1⟩ n ⟨2024, 1, 15⟩).isSome = true)
    ∧ (advanceDate "weekly" ⟨2024, 1, 15⟩ = ⟨2024, 1, 15⟩ ∧
      ∀ n, catchUp "weekly" ⟨2024, 5, 1⟩ n ⟨2024, 1, 15⟩ = none) :=
  ⟨(claim_C10_loop_termination "monthly" ⟨2024, 5, 1⟩ ⟨2024, 1, 15⟩).1
      (Or.inl rfl) (by decide) (by decide),
   (claim_C10_loop_termination "weekly" ⟨2024, 5, 1⟩ ⟨2024, 1, 15⟩).2
      (by decide) (by decide) (by decide)⟩

/-- Re-running a terminated catch-up pass from its final cursor emits
nothing: the persisted cursor prevents re-materializing already-created
periods. -/
lemma catchUp_getLastD (freq : String) (t : YMD) :
    ∀ (n : Nat) (c : YMD) (l : List YMD), catchUp freq t n c = some l →
      ∀ m, 1 ≤ m → catchUp freq t m (l.getLastD c) = some [] := by
  intro n
  induction n with
  | zero =>
    intro c l h m hm
    by_cases hc : dateLt c t = true
    · simp [catchUp, hc] at h
    · rw [Bool.not_eq_true] at hc
      simp [catchUp, hc] at h
      subst h
      cases m with
      | zero => simp [catchUp, hc]
      | succ m => simp [catchUp, hc]
  | succ n ih =>
    intro c l h m hm
    by_cases hc : dateLt c t = true
    · by_cases hc2 : dateLt (advanceDate freq c) t = true
      · simp only [catchUp, hc, if_true, hc2] at h
        cases hcall : catchUp freq t n (advanceDate freq c) with
        | none => simp [hcall] at h
        | some l2 =>
          simp [hcall] at h
          subst h
          rw [List.getLastD_cons]
          exact ih _ _ hcall m hm
      · rw [Bool.not_eq_true] at hc2
        simp [catchUp, hc, hc2] at h
        subst h
        cases m with
        | zero => omega
        | succ m => simp [catchUp, hc, hc2]
    · rw [Bool.not_eq_true] at hc
      simp [catchUp, hc] at h
      subst h
      cases m with
      | zero => simp [catchUp, hc]
      | succ m => simp [catchUp, hc]

/-- Effect of one batch operation on a single template document (the
document part of `applyOp` restricted to the `recurring` collection). -/
def cursorStep (op : BatchOp) (t : Template) : Template :=
  match op with
  | BatchOp.setEntry _ _ _ => t
  | BatchOp.updateCursor tid d =>
    if t.id = tid then { t with lastProcessed := some d } else t

/-- Cumulative effect of a batch on a single template document. -/
def applyCursorOps (t : Template) (ops : List BatchOp) : Template :=
  ops.foldl (fun t op => cursorStep op t) t

lemma applyCursorOps_cons (u : Template) (op : BatchOp) (ops : List BatchOp) :
    applyCursorOps u (op :: ops) = applyCursorOps (cursorStep op u) ops := rfl

lemma applyCursorOps_append (u : Template) (a b : List BatchOp) :
    applyCursorOps u (a ++ b) = applyCursorOps (applyCursorOps u a) b := by
  simp [applyCursorOps, List.foldl_append]

/-- The templates after applying a batch are the pointwise cumulative
cursor updates. -/
lemma applyOps_templates :
    ∀ (ops : List BatchOp) (s : MatStore),
      (applyOps s ops).templates =
        s.templates.map (fun t => applyCursorOps t ops) := by
  intro ops
  induction ops with
  | nil =>
    intro s
    simp [applyOps, applyCursorOps]
  | cons op rest ih =>
    intro s
    have h1 : applyOps s (op :: rest) = applyOps (applyOp s op) rest := rfl
    rw [h1, ih]
    cases op with
    | setEntry coll det date =>
      have h3 : (applyOp s (BatchOp.setEntry coll det date)).templates
          = s.templates := by
        simp only [applyOp]
        split <;> rfl
      rw [h3]
      rfl
    | updateCursor tid d =>
      have h3 : (applyOp s (BatchOp.updateCursor tid d)).templates
          = s.templates.map
              (fun t => cursorStep (BatchOp.updateCursor tid d) t) := rfl
      rw [h3, List.map_map]
      rfl

lemma opsFor_cons (t : Template) (d : YMD) (l : List YMD) :
    opsFor t (d :: l) =
      BatchOp.setEntry (collectionOf t) t.details d ::
      BatchOp.updateCursor t.id d :: opsFor t l := by
  simp [opsFor]

lemma updatedTemplate_id (t : Template) (l : List YMD) :
    (updatedTemplate t l).id = t.id := by
  cases hl : l.getLast? <;> simp [updatedTemplate, hl]

lemma updatedTemplate_frequency (t : Template) (l : List YMD) :
    (updatedTemplate t l).frequency = t.frequency := by
  cases hl : l.getLast? <;> simp [updatedTemplate, hl]

/-- Prepending a cursor write commutes with the final-cursor view. -/
lemma updatedTemplate_set (u : Template) (d : YMD) (l : List YMD) :
    updatedTemplate { u with lastProcessed := some d } l =
      updatedTemplate u (d :: l) := by
  cases hl : l.getLast? with
  | none =>
    have hn : l = [] := List.getLast?_eq_none_iff.mp hl
    subst hn
    simp [updatedTemplate]
  | some x =>
    have hl2 : (d :: l).getLast? = some x := by
      cases l with
      | nil => simp at hl
      | cons e l2 => rw [List.getLast?_cons_cons]; exact hl
    simp [updatedTemplate, hl, hl2]

/-- A template whose id does not match is untouched by another
template's batch block. -/
lemma applyCursorOps_opsFor_ne (t : Template) (l : List YMD) (u : Template)
    (h : ¬ u.id = t.id) :
    applyCursorOps u (opsFor t l) = u := by
  induction l with
  | nil => rfl
  | cons d l ih =>
    rw [opsFor_cons, applyCursorOps_cons, applyCursorOps_cons]
    have h1 : cursorStep (BatchOp.setEntry (collectionOf t) t.details d) u
        = u := rfl
    have h2 : cursorStep (BatchOp.updateCursor t.id d) u = u := by
      simp [cursorStep, h]
    rw [h1, h2, ih]

/-- A template's own batch block moves it to the final-cursor view. -/
lemma applyCursorOps_opsFor_eq (t : Template) (l : List YMD) :
    ∀ (u : Template), u.id = t.id →
      applyCursorOps u (opsFor t l) = updatedTemplate u l := by
  induction l with
  | nil =>
    intro u _
    rfl
  | cons d l ih =>
    intro u h
    rw [opsFor_cons, applyCursorOps_cons, applyCursorOps_cons]
    have h1 : cursorStep (BatchOp.setEntry (collectionOf t) t.details d) u
        = u := rfl
    have h2 : cursorStep (BatchOp.updateCursor t.id d) u
        = { u with lastProcessed := some d } := by
      simp [cursorStep, h]
    rw [h1, h2, ih { u with lastProcessed := some d } h,
      updatedTemplate_set]

/-- A template whose id matches no block of the batch is untouched by the
whole batch. -/
lemma applyCursorOps_flatten_notouch (u : Template) :
    ∀ ps : List (Template × List YMD), (∀ p ∈ ps, ¬ u.id = p.1.id) →
      applyCursorOps u ((ps.map (fun p => opsFor p.1 p.2)).flatten) = u := by
  intro ps
  induction ps with
  | nil => intro _; rfl
  | cons p ps ih =>
    intro h
    rw [List.map_cons, List.flatten_cons, applyCursorOps_append,
      applyCursorOps_opsFor_ne p.1 p.2 u (h p (by simp))]
    exact ih (fun q hq => h q (List.mem_cons_of_mem p hq))

/-- Applying the whole batch to the template list updates every template
to its final cursor, provided the template ids are pairwise distinct. -/
lemma map_applyCursorOps_flatten :
    ∀ ps : List (Template × List YMD),
      (ps.map (fun p => p.1.id)).Nodup →
      (ps.map Prod.fst).map
          (fun t => applyCursorOps t ((ps.map (fun p => opsFor p.1 p.2)).flatten))
        = ps.map (fun p => updatedTemplate p.1 p.2) := by
  intro ps
  induction ps with
  | nil => intro _; rfl
  | cons p ps ih =>
    intro hnd
    rw [List.map_cons, List.nodup_cons] at hnd
    obtain ⟨hp, hnd2⟩ := hnd
    rw [List.map_cons, List.map_cons, List.map_cons, List.flatten_cons]
    congr 1
    · rw [applyCursorOps_append, applyCursorOps_opsFor_eq p.1 p.2 p.1 rfl]
      apply applyCursorOps_flatten_notouch
      intro q hq hid
      rw [updatedTemplate_id] at hid
      exact hp (by rw [hid]; exact List.mem_map_of_mem _ hq)
    · have hstep : ∀ t ∈ ps.map Prod.fst,
          applyCursorOps t (opsFor p.1 p.2 ++
              (ps.map (fun q => opsFor q.1 q.2)).flatten)
            = applyCursorOps t ((ps.map (fun q => opsFor q.1 q.2)).flatten) := by
        intro t ht
        obtain ⟨q, hq, rfl⟩ := List.mem_map.mp ht
        rw [applyCursorOps_append, applyCursorOps_opsFor_ne p.1 p.2 q.1]
        intro hid
        exact hp (by rw [← hid]; exact List.mem_map_of_mem _ hq)
      rw [List.map_congr_left hstep, ih hnd2]

lemma runAll_fst (today : YMD) (fuel : Nat) :
    ∀ (ts : List Template) (ps : List (Template × List YMD)),
      runAll today fuel ts = some ps → ps.map Prod.fst = ts := by
  intro ts
  induction ts with
  | nil =>
    intro ps h
    simp [runAll] at h
    subst h
    rfl
  | cons t ts ih =>
    intro ps h
    simp only [runAll] at h
    cases h1 : processTemplate today fuel t with
    | none => rw [h1] at h; simp at h
    | some l =>
      cases h2 : runAll today fuel ts with
      | none => rw [h1, h2] at h; simp at h
      | some ps2 =>
        rw [h1, h2] at h
        simp at h
        subst h
        simp [ih ps2 h2]

lemma runAll_snd (today : YMD) (fuel : Nat) :
    ∀ (ts : List Template) (ps : List (Template × List YMD)),
      runAll today fuel ts = some ps →
      ∀ p ∈ ps, processTemplate today fuel p.1 = some p.2 := by
  intro ts
  induction ts with
  | nil =>
    intro ps h
    simp [runAll] at h
    subst h
    intro p hp
    simp at hp
  | cons t ts ih =>
    intro ps h
    simp only [runAll] at h
    cases h1 : processTemplate today fuel t with
    | none => rw [h1] at h; simp at h
    | some l =>
      cases h2 : runAll today fuel ts with
      | none => rw [h1, h2] at h; simp at h
      | some ps2 =>
        rw [h1, h2] at h
        simp at h
        subst h
        intro p hp
        rcases List.mem_cons.mp hp with hp | hp
        · subst hp; exact h1
        · exact ih ps2 h2 p hp

/-- After a run, re-processing a template from its persisted cursor emits
nothing. -/
lemma processTemplate_updated (today : YMD) (n m : Nat) (hm : 1 ≤ m)
    (t : Template) (l : List YMD) (h : processTemplate today n t = some l) :
    processTemplate today m (updatedTemplate t l) = some [] := by
  unfold processTemplate at h ⊢
  have hcur : initialCursor (updatedTemplate t l) =
      l.getLastD (initialCursor t) := by
    cases hl : l.getLast? with
    | none =>
      have hn : l = [] := List.getLast?_eq_none_iff.mp hl
      subst hn
      simp [updatedTemplate]
    | some d =>
      simp [updatedTemplate, hl, initialCursor, List.getLastD_eq_getLast?]
  rw [updatedTemplate_frequency, hcur]
  exact catchUp_getLastD t.frequency today n (initialCursor t) l h m hm

/-- A second run over the updated templates terminates at once and emits
nothing for any template. -/
lemma runAll_updated (today : YMD) (n m : Nat) (hm : 1 ≤ m) :
    ∀ ps : List (Template × List YMD),
      (∀ p ∈ ps, processTemplate today n p.1 = some p.2) →
      runAll today m (ps.map (fun p => updatedTemplate p.1 p.2)) =
        some (ps.map (fun p => (updatedTemplate p.1 p.2, ([] : List YMD)))) := by
  intro ps
  induction ps with
  | nil => intro _; rfl
  | cons p ps ih =>
    intro h
    rw [List.map_cons, List.map_cons]
    simp only [runAll]
    rw [processTemplate_updated today n m hm p.1 p.2 (h p (by simp)),
      ih (fun q hq => h q (List.mem_cons_of_mem p hq))]

/-- C2: the Materializer is idempotent.  If one run over the store's
templates produced the batch `ops` (so all catch-up loops terminated) and
the template ids are pairwise distinct, then running it again over the
committed post-state with the same today produces an empty batch: zero
additional transaction or income documents and no cursor change. -/
theorem claim_C2_idempotent (today : YMD) (n m : Nat) (s : MatStore)
    (ops : List BatchOp)
    (h1 : batchOps today n s.templates = some ops)
    (hm : 1 ≤ m)
    (hids : (s.templates.map Template.id).Nodup) :
    batchOps today m (applyOps s ops).templates = some [] ∧
    applyOps (applyOps s ops) [] = applyOps s ops := by
  refine ⟨?_, rfl⟩
  unfold batchOps at h1
  cases hr : runAll today n s.templates with
  | none => rw [hr] at h1; simp at h1
  | some ps =>
    rw [hr] at h1
    simp only [Option.map_some'] at h1
    have hops : ops = (ps.map (fun p => opsFor p.1 p.2)).flatten := by
      exact (Option.some.injEq _ _ ▸ h1).symm
    have hfst : ps.map Prod.fst = s.templates := runAll_fst today n _ ps hr
    have hsnd := runAll_snd today n _ ps hr
    have hnd : (ps.map (fun p => p.1.id)).Nodup := by
      have : ps.map (fun p => p.1.id) = s.templates.map Template.id := by
        rw [← hfst, List.map_map]
        rfl
      rw [this]
      exact hids
    have htempl : (applyOps s ops).templates =
        ps.map (fun p => updatedTemplate p.1 p.2) := by
      rw [applyOps_templates, ← hfst, hops]
      exact map_applyCursorOps_flatten ps hnd
    rw [htempl]
    unfold batchOps
    rw [runAll_updated today n m hm ps hsnd]
    simp [opsFor]

/-- The batch produced by the worked example run (three occurrences, each
a document write followed by a cursor write). -/
def exBatch : List BatchOp :=
  [BatchOp.setEntry "transactions" exDetails ⟨2024, 2, 15⟩,
   BatchOp.updateCursor "r1" ⟨2024, 2, 15⟩,
   BatchOp.setEntry "transactions" exDetails ⟨2024, 3, 15⟩,
   BatchOp.updateCursor "r1" ⟨2024, 3, 15⟩,
   BatchOp.setEntry "transactions" exDetails ⟨2024, 4, 15⟩,
   BatchOp.updateCursor "r1" ⟨2024, 4, 15⟩]

example : batchOps ⟨2024, 5, 1⟩ 10 [exTemplate] = some exBatch := by decide

/-- Witness for C2 on the worked example store. -/
theorem claim_C2_idempotent_witness :
    batchOps ⟨2024, 5, 1⟩ 1
        (applyOps ⟨[], [], [exTemplate]⟩ exBatch).templates = some [] ∧
    applyOps (applyOps ⟨[], [], [exTemplate]⟩ exBatch) [] =
      applyOps ⟨[], [], [exTemplate]⟩ exBatch :=
  claim_C2_idempotent ⟨2024, 5, 1⟩ 10 1 ⟨[], [], [exTemplate]⟩ exBatch
    (by decide) (by decide) (by decide)

/-- Membership in one template's batch block. -/
lemma mem_opsFor (t : Template) (l : List YMD) (op : BatchOp) :
    op ∈ opsFor t l ↔ ∃ d, d ∈ l ∧
      (op = BatchOp.setEntry (collectionOf t) t.details d ∨
       op = BatchOp.updateCursor t.id d) := by
  simp [opsFor]

/-- Membership in the assembled batch, unfolded to the template blocks. -/
lemma mem_flatten_ops (ps : List (Template × List YMD)) (op : BatchOp) :
    op ∈ (ps.map (fun p => opsFor p.1 p.2)).flatten ↔
      ∃ p, p ∈ ps ∧ ∃ d, d ∈ p.2 ∧
        (op = BatchOp.setEntry (collectionOf p.1) p.1.details d ∨
         op = BatchOp.updateCursor p.1.id d) := by
  rw [List.mem_flatten]
  constructor
  · rintro ⟨l, hl, hop⟩
    obtain ⟨p, hp, rfl⟩ := List.mem_map.mp hl
    obtain ⟨d, hd, hcase⟩ := (mem_opsFor p.1 p.2 op).mp hop
    exact ⟨p, hp, d, hd, hcase⟩
  · rintro ⟨p, hp, d, hd, hcase⟩
    exact ⟨opsFor p.1 p.2, List.mem_map_of_mem _ hp,
      (mem_opsFor p.1 p.2 op).mpr ⟨d, hd, hcase⟩⟩

/-- Every cursor update in the assembled batch is paired with its
materialized document and vice versa. -/
lemma batchOps_pairing (today : YMD) (fuel : Nat) (ts : List Template)
    (ops : List BatchOp) (h : batchOps today fuel ts = some ops) :
    (∀ tid d, BatchOp.updateCursor tid d ∈ ops →
      ∃ t, t ∈ ts ∧ t.id = tid ∧
        BatchOp.setEntry (collectionOf t) t.details d ∈ ops) ∧
    (∀ coll det d, BatchOp.setEntry coll det d ∈ ops →
      ∃ t, t ∈ ts ∧ coll = collectionOf t ∧ det = t.details ∧
        BatchOp.updateCursor t.id d ∈ ops) := by
  unfold batchOps at h
  cases hr : runAll today fuel ts with
  | none => rw [hr] at h; simp at h
  | some ps =>
    rw [hr] at h
    simp only [Option.map_some'] at h
    have hops : ops = (ps.map (fun p => opsFor p.1 p.2)).flatten :=
      (Option.some.injEq _ _ ▸ h).symm
    have hfst : ps.map Prod.fst = ts := runAll_fst today fuel _ ps hr
    subst hops
    constructor
    · intro tid d hmem
      rw [mem_flatten_ops] at hmem
      obtain ⟨p, hp, d2, hd2, hcase | hcase⟩ := hmem
      · exact absurd hcase (by simp)
      · have h1 : tid = p.1.id ∧ d = d2 := by simpa using hcase
        obtain ⟨rfl, rfl⟩ := h1
        refine ⟨p.1, ?_, rfl, ?_⟩
        · rw [← hfst]
          exact List.mem_map_of_mem _ hp
        · rw [mem_flatten_ops]
          exact ⟨p, hp, d, hd2, Or.inl rfl⟩
    · intro coll det d hmem
      rw [mem_flatten_ops] at hmem
      obtain ⟨p, hp, d2, hd2, hcase | hcase⟩ := hmem
      · have h1 : coll = collectionOf p.1 ∧ det = p.1.details ∧ d = d2 := by
          simpa using hcase
        obtain ⟨rfl, rfl, rfl⟩ := h1
        refine ⟨p.1, ?_, rfl, rfl, ?_⟩
        · rw [← hfst]
          exact List.mem_map_of_mem _ hp
        · rw [mem_flatten_ops]
          exact ⟨p, hp, d, hd2, Or.inr rfl⟩
      · exact absurd hcase (by simp)

/-- C3: one run submits all materialized documents and cursor updates of
every template as a single batch whose commit is atomic: a failed commit
leaves the store (collections and templates) unchanged, a successful
commit applies exactly the queued operations, and within the queued batch
every cursor update is paired with its materialized document and every
materialized document with its cursor update — so no reachable post-state
advances a cursor without its document or vice versa. -/
theorem claim_C3_atomic_batch (today : YMD) (fuel : Nat) (s : MatStore)
    (ops : List BatchOp) (h : batchOps today fuel s.templates = some ops) :
    runMaterializer today fuel false s = s ∧
    runMaterializer today fuel true s = applyOps s ops ∧
    (∀ tid d, BatchOp.updateCursor tid d ∈ ops →
      ∃ t, t ∈ s.templates ∧ t.id = tid ∧
        BatchOp.setEntry (collectionOf t) t.details d ∈ ops) ∧
    (∀ coll det d, BatchOp.setEntry coll det d ∈ ops →
      ∃ t, t ∈ s.templates ∧ coll = collectionOf t ∧ det = t.details ∧
        BatchOp.updateCursor t.id d ∈ ops) :=
  ⟨by simp [runMaterializer, h], by simp [runMaterializer, h],
   (batchOps_pairing today fuel s.templates ops h).1,
   (batchOps_pairing today fuel s.templates ops h).2⟩

/-- Witness for C3 on the worked example: a failed commit is the identity
on the store, and the first cursor update of the example batch is paired
with its materialized document. -/
theorem claim_C3_atomic_batch_witness :
    runMaterializer ⟨2024, 5, 1⟩ 10 false ⟨[], [], [exTemplate]⟩ =
      ⟨[], [], [exTemplate]⟩ ∧
    ∃ t, t ∈ ([exTemplate] : List Template) ∧ t.id = "r1" ∧
      BatchOp.setEntry (collectionOf t) t.details ⟨2024, 2, 15⟩ ∈ exBatch := by
  have h := claim_C3_atomic_batch ⟨2024, 5, 1⟩ 10 ⟨[], [], [exTemplate]⟩
    exBatch (by decide)
  exact ⟨h.1, h.2.2.1 "r1" ⟨2024, 2, 15⟩ (by decide)⟩

/-- A transaction document as consumed by the Dashboard aggregations
(App.js lines 202-276): `ttype` is the stored `type` field; `payer` and
`description` are display-only and never read by any aggregation, so they
are omitted. -/
structure Transaction where
  date : YMD
  ttype : String
  amount : ℚ
  currency : String
  category : String
  saver : String
  liabilityId : String
deriving DecidableEq, Repr

/-- An income document (`description` is display-only and omitted). -/
structure Income where
  date : YMD
  amount : ℚ
  currency : String
  source : String
deriving DecidableEq, Repr

/-- `items.reduce((sum, t) => sum + f(t), 0)`. -/
def sumBy (f : α → ℚ) (l : List α) : ℚ :=
  l.foldl (fun s x => s + f x) 0

lemma foldl_add_shift (f : α → ℚ) :
    ∀ (l : List α) (init : ℚ),
      l.foldl (fun s x => s + f x) init =
        init + l.foldl (fun s x => s + f x) 0 := by
  intro l
  induction l with
  | nil => intro init; simp
  | cons a l ih =>
    intro init
    rw [List.foldl_cons, List.foldl_cons, ih (init + f a), ih (0 + f a)]
    ring

lemma sumBy_cons (f : α → ℚ) (a : α) (l : List α) :
    sumBy f (a :: l) = f a + sumBy f l := by
  unfold sumBy
  rw [List.foldl_cons, foldl_add_shift f l (0 + f a)]
  ring

/-- `['expense', 'savings', 'liabilityPayment'].includes(t.type)`
(App.js lines 220/224). -/
def isOutflowType (ty : String) : Bool :=
  decide (ty = "expense" ∨ ty = "savings" ∨ ty = "liabilityPayment")

/-- Result record of `calculateBalances` (App.js line 226). -/
structure Balances where
  opening : ℚ
  cashFlow : ℚ
  closing : ℚ
deriving DecidableEq, Repr

/-- `calculateBalances` of the Dashboard (App.js lines 211-227): per
currency, `opening` sums incomes minus outflow transactions plus savings
withdrawals over entries dated strictly before the first of the selected
month, `cashFlow` the same formula over entries whose calendar month and
year equal the selection, `closing` their sum.  The JS `filterByDate` is
`new Date(item.date) < startOfSelectedMonth` and `filterByMonth` compares
`getMonth()`/`getFullYear()`; months here are 1-based where JS is
0-based, an offset that is uniform on both sides of every comparison. -/
def calculateBalances (transactions : List Transaction) (incomes : List Income)
    (selectedYear selectedMonth : Nat) (currency : String) : Balances :=
  let prevIncomes := sumBy Income.amount
    ((incomes.filter (fun i => i.currency == currency)).filter
      (fun i => dateLt i.date ⟨selectedYear, selectedMonth, 1⟩))
  let prevTransactions :=
    (transactions.filter (fun t => t.currency == currency)).filter
      (fun t => dateLt t.date ⟨selectedYear, selectedMonth, 1⟩)
  let opening := prevIncomes
    - sumBy Transaction.amount (prevTransactions.filter (fun t => isOutflowType t.ttype))
    + sumBy Transaction.amount (prevTransactions.filter (fun t => t.ttype == "savingsWithdrawal"))
  let monthlyIncomesTotal := sumBy Income.amount
    ((incomes.filter (fun i => i.currency == currency)).filter
      (fun i => decide (i.date.month = selectedMonth ∧ i.date.year = selectedYear)))
  let monthlyTransactionsFiltered :=
    (transactions.filter (fun t => t.currency == currency)).filter
      (fun t => decide (t.date.month = selectedMonth ∧ t.date.year = selectedYear))
  let cashFlow := monthlyIncomesTotal
    - sumBy Transaction.amount (monthlyTransactionsFiltered.filter (fun t => isOutflowType t.ttype))
    + sumBy Transaction.amount (monthlyTransactionsFiltered.filter (fun t => t.ttype == "savingsWithdrawal"))
  ⟨opening, cashFlow, opening + cashFlow⟩

lemma dateLt_first_self (y m : Nat) :
    dateLt ⟨y, m, 1⟩ ⟨y, m, 1⟩ = false := by
  simp [dateLt]

lemma outflow_not_withdrawal (ty : String) (h : isOutflowType ty = true) :
    (ty == "savingsWithdrawal") = false := by
  simp only [isOutflowType, decide_eq_true_eq] at h
  rcases h with h | h | h <;> subst h <;> rfl

example :
    (calculateBalances []
      [⟨⟨2024, 4, 30⟩, 100, "EUR", "Husband"⟩] 2024 5 "EUR").opening = 100 := by
  norm_num [calculateBalances, sumBy, dateLt, List.filter_cons]

/-- C4: month-boundary exactness of the Balance Aggregator.  An entry
dated exactly on the 1st of the target month never contributes to
`opening` (whatever its type or currency), and its amount enters
`cashFlow`: positively for incomes and savings withdrawals, negatively
for the outflow types; the boundary date itself is not strictly before
the month start, so the opening sums range exactly over entries strictly
before the 1st while the cashFlow sums range over month+year matches. -/
theorem claim_C4_first_of_month (txs : List Transaction) (incs : List Income)
    (y m : Nat) (cur : String) (t : Transaction) (i : Income)
    (ht : t.date = ⟨y, m, 1⟩) (hi : i.date = ⟨y, m, 1⟩) :
    (calculateBalances (t :: txs) incs y m cur).opening =
      (calculateBalances txs incs y m cur).opening
    ∧ (calculateBalances txs (i :: incs) y m cur).opening =
      (calculateBalances txs incs y m cur).opening
    ∧ (i.currency = cur →
        (calculateBalances txs (i :: incs) y m cur).cashFlow =
          (calculateBalances txs incs y m cur).cashFlow + i.amount)
    ∧ (t.currency = cur → isOutflowType t.ttype = true →
        (calculateBalances (t :: txs) incs y m cur).cashFlow =
          (calculateBalances txs incs y m cur).cashFlow - t.amount)
    ∧ (t.currency = cur → t.ttype = "savingsWithdrawal" →
        (calculateBalances (t :: txs) incs y m cur).cashFlow =
          (calculateBalances txs incs y m cur).cashFlow + t.amount)
    ∧ dateLt ⟨y, m, 1⟩ ⟨y, m, 1⟩ = false := by
  refine ⟨?_, ?_, ?_, ?_, ?_, dateLt_first_self y m⟩
  · by_cases hcur : t.currency = cur <;>
      simp [calculateBalances, List.filter_cons, ht, dateLt_first_self, hcur]
  · by_cases hcur : i.currency = cur <;>
      simp [calculateBalances, List.filter_cons, hi, dateLt_first_self, hcur]
  · intro hcur
    simp [calculateBalances, List.filter_cons, hi, hcur, sumBy_cons]
    ring
  · intro hcur hout
    have hw := outflow_not_withdrawal t.ttype hout
    simp [calculateBalances, List.filter_cons, ht, hcur, hout, hw, sumBy_cons]
    ring
  · intro hcur hty
    have hout : isOutflowType "savingsWithdrawal" = false := by decide
    simp [calculateBalances, List.filter_cons, ht, hcur, hty, hout, sumBy_cons]
    ring

/-- Witness for C4: a concrete expense and income dated 2024-05-01 in the
May 2024 view. -/
theorem claim_C4_first_of_month_witness :
    (calculateBalances [⟨⟨2024, 5, 1⟩, "expense", 40, "EUR", "Grocery", "", ""⟩]
        [] 2024 5 "EUR").opening =
      (calculateBalances [] [] 2024 5 "EUR").opening
    ∧ (calculateBalances [] [⟨⟨2024, 5, 1⟩, 100, "EUR", "Husband"⟩]
        2024 5 "EUR").cashFlow =
      (calculateBalances [] [] 2024 5 "EUR").cashFlow + 100
    ∧ (calculateBalances [⟨⟨2024, 5, 1⟩, "expense", 40, "EUR", "Grocery", "", ""⟩]
        [] 2024 5 "EUR").cashFlow =
      (calculateBalances [] [] 2024 5 "EUR").cashFlow - 40 := by
  have h := claim_C4_first_of_month [] [] 2024 5 "EUR"
    ⟨⟨2024, 5, 1⟩, "expense", 40, "EUR", "Grocery", "", ""⟩
    ⟨⟨2024, 5, 1⟩, 100, "EUR", "Husband"⟩ rfl rfl
  exact ⟨h.1, h.2.2.1 rfl, h.2.2.2.1 rfl (by decide)⟩

/-- Dropping the entries of one currency leaves a different currency's
filter untouched. -/
lemma filter_currency_drop (f : α → String) (a b : String) (hab : ¬ a = b) :
    ∀ l : List α,
      (l.filter (fun x => !(f x == b))).filter (fun x => f x == a)
        = l.filter (fun x => f x == a) := by
  have hba : ¬ b = a := fun hcon => hab hcon.symm
  intro l
  induction l with
  | nil => rfl
  | cons x l ih =>
    by_cases hx : f x = b
    · have h2 : ¬ f x = a := by
        intro hcon
        exact hab (by rw [← hcon, hx])
      simp [List.filter_cons, hx, h2, ih, hab, hba]
    · by_cases hxa : f x = a <;>
        simp [List.filter_cons, hx, hxa, ih, hab, hba]

/-- C5: currency isolation of the Balance Aggregator.  Removing every INR
transaction and INR income from the input leaves the EUR opening,
cashFlow and closing unchanged, and symmetrically removing every EUR
entry leaves the INR figures unchanged: no amount of one currency ever
contributes to the other currency's three figures. -/
theorem claim_C5_currency_isolation (txs : List Transaction)
    (incs : List Income) (y m : Nat) :
    calculateBalances (txs.filter (fun t => !(t.currency == "INR")))
        (incs.filter (fun i => !(i.currency == "INR"))) y m "EUR" =
      calculateBalances txs incs y m "EUR"
    ∧ calculateBalances (txs.filter (fun t => !(t.currency == "EUR")))
        (incs.filter (fun i => !(i.currency == "EUR"))) y m "INR" =
      calculateBalances txs incs y m "INR" := by
  constructor
  · have h1 := filter_currency_drop (fun t : Transaction => t.currency)
      "EUR" "INR" (by decide) txs
    have h2 := filter_currency_drop (fun i : Income => i.currency)
      "EUR" "INR" (by decide) incs
    simp only [calculateBalances, h1, h2]
  · have h1 := filter_currency_drop (fun t : Transaction => t.currency)
      "INR" "EUR" (by decide) txs
    have h2 := filter_currency_drop (fun i : Income => i.currency)
      "INR" "EUR" (by decide) incs
    simp only [calculateBalances, h1, h2]

/-- Liability document (`liabilities` collection, App.js line 331). -/
structure Liability where
  id : String
  name : String
  totalAmount : ℚ
  currency : String
deriving DecidableEq, Repr

/-- Asset document (`assets` collection, App.js line 333). -/
structure Asset where
  name : String
  value : ℚ
  currency : String
deriving DecidableEq, Repr

/-- The `{...liability, paid, balance}` record built per liability by the
Dashboard (App.js lines 251-255). -/
structure LiabilityDetail where
  id : String
  name : String
  totalAmount : ℚ
  currency : String
  paid : ℚ
  balance : ℚ
deriving DecidableEq, Repr

/-- `transactions.filter(t => t.type === 'liabilityPayment' &&
t.liabilityId === liability.id).reduce((sum, t) => sum + t.amount, 0)`
(App.js line 252). -/
def paymentsFor (txs : List Transaction) (lid : String) : ℚ :=
  sumBy Transaction.amount
    (txs.filter (fun t => t.ttype == "liabilityPayment" && t.liabilityId == lid))

/-- `liabilityDetails` of the Dashboard (App.js lines 251-255): balance is
`totalAmount - payments`, with no clamping. -/
def liabilityDetails (liabilities : List Liability) (txs : List Transaction) :
    List LiabilityDetail :=
  liabilities.map (fun l =>
    ⟨l.id, l.name, l.totalAmount, l.currency,
     paymentsFor txs l.id, l.totalAmount - paymentsFor txs l.id⟩)

/-- `calculateDetailedSavings` of the Dashboard for one person and one
currency (App.js lines 239-246): deposits of type savings/openingBalance
minus savingsWithdrawal, over that person's transactions. -/
def savingsByCurrency (txs : List Transaction) (person currency : String) : ℚ :=
  let personTransactions := txs.filter (fun t => t.saver == person)
  sumBy Transaction.amount
    (personTransactions.filter (fun t =>
      (t.ttype == "savings" || t.ttype == "openingBalance") && t.currency == currency))
  - sumBy Transaction.amount
    (personTransactions.filter (fun t =>
      t.ttype == "savingsWithdrawal" && t.currency == currency))

/-- Per-currency net worth of the Dashboard (App.js lines 257-268):
assets plus both persons' savings minus the liability balances of that
currency. -/
def netWorthCur (assets : List Asset) (txs : List Transaction)
    (liabilities : List Liability) (currency : String) : ℚ :=
  sumBy Asset.value (assets.filter (fun a => a.currency == currency))
  + (savingsByCurrency txs "Husband" currency +
     savingsByCurrency txs "Wife" currency)
  - sumBy LiabilityDetail.balance
      ((liabilityDetails liabilities txs).filter
        (fun l => l.currency == currency))

/-- C8: every liability's computed balance is totalAmount minus the sum
of the liabilityPayment transactions referencing it, with no clamping:
overpayment yields a negative balance, and that balance is subtracted
as-is in the per-currency net worth (so an extra EUR liability changes
the EUR net worth by exactly minus its possibly-negative balance). -/
theorem claim_C8_liability_balance (ls : List Liability)
    (txs : List Transaction) (assets : List Asset) (l : Liability)
    (d : LiabilityDetail) (hd : d ∈ liabilityDetails (l :: ls) txs)
    (hcur : l.currency = "EUR") :
    (d.balance = d.totalAmount - paymentsFor txs d.id
      ∧ (d.totalAmount < paymentsFor txs d.id → d.balance < 0))
    ∧ netWorthCur assets txs (l :: ls) "EUR" =
        netWorthCur assets txs ls "EUR" -
          (l.totalAmount - paymentsFor txs l.id) := by
  constructor
  · obtain ⟨l0, _, rfl⟩ := List.mem_map.mp hd
    refine ⟨rfl, ?_⟩
    intro h
    simp only at h ⊢
    linarith
  · simp [netWorthCur, liabilityDetails, List.map_cons, List.filter_cons,
      hcur, sumBy_cons]
    ring

/-- A single liability payment of 1200 EUR against liability "loan1". -/
def exPayments : List Transaction :=
  [⟨⟨2024, 1, 10⟩, "liabilityPayment", 1200, "EUR", "", "", "loan1"⟩]

/-- Witness for C8: a 1000 EUR liability overpaid by a 1200 EUR payment
has a negative balance, subtracted as-is from net worth. -/
theorem claim_C8_liability_balance_witness :
    ((⟨"loan1", "car", 1000, "EUR", paymentsFor exPayments "loan1",
        1000 - paymentsFor exPayments "loan1"⟩ : LiabilityDetail).balance < 0)
    ∧ netWorthCur [] exPayments [⟨"loan1", "car", 1000, "EUR"⟩] "EUR" =
        netWorthCur [] exPayments [] "EUR" -
          (1000 - paymentsFor exPayments "loan1") := by
  have h := claim_C8_liability_balance [] exPayments []
    ⟨"loan1", "car", 1000, "EUR"⟩
    ⟨"loan1", "car", 1000, "EUR", paymentsFor exPayments "loan1",
      1000 - paymentsFor exPayments "loan1"⟩
    (by simp [liabilityDetails]) rfl
  refine ⟨h.1.2 ?_, h.2⟩
  show (1000 : ℚ) < paymentsFor exPayments "loan1"
  have hp : paymentsFor exPayments "loan1" = 1200 := by
    simp [paymentsFor, sumBy, exPayments, List.filter_cons]
  rw [hp]
  decide

/-- The currency-rate record `{EUR: 1, INR: rate}` (App.js line 50). -/
structure Rates where
  EUR : ℚ
  INR : ℚ
deriving DecidableEq, Repr

/-- `toEUR = (amount, currency) => currency === 'INR' ? amount /
currencyRates.INR : amount` (App.js line 271). -/
def toEUR (rates : Rates) (amount : ℚ) (currency : String) : ℚ :=
  if currency = "INR" then amount / rates.INR else amount

/-- `monthlyTransactions.filter(t => t.type === 'expense')` where
`monthlyTransactions` matches the selected month and year
(App.js lines 272-273). -/
def monthlyExpenses (txs : List Transaction) (y m : Nat) : List Transaction :=
  (txs.filter (fun t => decide (t.date.month = m ∧ t.date.year = y))).filter
    (fun t => t.ttype == "expense")

/-- The per-category accumulated sum of the `expensesByCategory` object
(App.js line 273): `acc[t.category] += toEUR(t.amount, t.currency)`, and
`expensesByCategory[category] || 0` reads 0 for an absent key, which
equals this sum over the (then empty) matching transactions. -/
def expensesByCategory (rates : Rates) (txs : List Transaction)
    (y m : Nat) (c : String) : ℚ :=
  sumBy (fun t => toEUR rates t.amount t.currency)
    ((monthlyExpenses txs y m).filter (fun t => t.category == c))

/-- The keys of the `expensesByCategory` object: categories of that
month's expense transactions. -/
def expenseCategoryKeys (txs : List Transaction) (y m : Nat) : List String :=
  (monthlyExpenses txs y m).map (fun t => t.category)

/-- `[...new Set([...Object.keys(budgets), ...Object.keys(expensesByCategory)])]`
(App.js line 274); the JS Set keeps first occurrences where `dedup` keeps
last ones, a difference invisible to membership. -/
def allCategoryNames (budgets : List (String × ℚ)) (txs : List Transaction)
    (y m : Nat) : List String :=
  (budgets.map Prod.fst ++ expenseCategoryKeys txs y m).dedup

/-- `budgets[category] || 0` (App.js line 297). -/
def budgetOf (budgets : List (String × ℚ)) (c : String) : ℚ :=
  (budgets.lookup c).getD 0

/-- One rendered row of "Monthly Expenses vs Budget" (App.js line 297):
`budget`, `actual`, and whether the over-budget flag is shown
(`isOverBudget && budget > 0` with `isOverBudget = actual > budget`). -/
structure VarianceRow where
  category : String
  budget : ℚ
  actual : ℚ
  overBudgetFlag : Bool
deriving DecidableEq, Repr

/-- The Budget Variance output: one row per name in `allCategoryNames`
(App.js line 297). -/
def varianceRows (rates : Rates) (budgets : List (String × ℚ))
    (txs : List Transaction) (y m : Nat) : List VarianceRow :=
  (allCategoryNames budgets txs y m).map (fun c =>
    ⟨c, budgetOf budgets c, expensesByCategory rates txs y m c,
     decide (budgetOf budgets c < expensesByCategory rates txs y m c) &&
       decide (0 < budgetOf budgets c)⟩)

/-- C7: the Budget Variance output ranges over exactly the union of the
budget-set categories and that month's expense-transaction categories; a
category with no matching expense that month (in particular one present
only in the budget set) has actual 0; a row is flagged over-budget
exactly when actual exceeds budget and budget is positive; and actual
converts amounts to EUR dividing INR amounts by the EUR-to-INR rate and
leaving EUR amounts unchanged. -/
theorem claim_C7_budget_variance (rates : Rates)
    (budgets : List (String × ℚ)) (txs : List Transaction) (y m : Nat)
    (c : String) :
    ((∃ r ∈ varianceRows rates budgets txs y m, r.category = c) ↔
      (c ∈ budgets.map Prod.fst ∨ ∃ t ∈ monthlyExpenses txs y m, t.category = c))
    ∧ (∀ r ∈ varianceRows rates budgets txs y m,
        (r.overBudgetFlag = true ↔ r.budget < r.actual ∧ 0 < r.budget)
        ∧ r.budget = budgetOf budgets r.category
        ∧ r.actual = expensesByCategory rates txs y m r.category)
    ∧ ((∀ t ∈ monthlyExpenses txs y m, ¬ t.category = c) →
        expensesByCategory rates txs y m c = 0)
    ∧ (∀ amt : ℚ, toEUR rates amt "INR" = amt / rates.INR ∧
        toEUR rates amt "EUR" = amt) := by
  refine ⟨?_, ?_, ?_, ?_⟩
  · constructor
    · rintro ⟨r, hr, rfl⟩
      obtain ⟨c2, hc2, rfl⟩ := List.mem_map.mp hr
      have := List.mem_dedup.mp hc2
      rcases List.mem_append.mp this with h | h
      · exact Or.inl h
      · obtain ⟨t, ht, rfl⟩ := List.mem_map.mp h
        exact Or.inr ⟨t, ht, rfl⟩
    · intro h
      have hc : c ∈ allCategoryNames budgets txs y m := by
        rw [allCategoryNames, List.mem_dedup, List.mem_append]
        rcases h with h | ⟨t, ht, rfl⟩
        · exact Or.inl h
        · exact Or.inr (List.mem_map_of_mem _ ht)
      exact ⟨_, List.mem_map_of_mem _ hc, rfl⟩
  · intro r hr
    obtain ⟨c2, _, rfl⟩ := List.mem_map.mp hr
    refine ⟨?_, rfl, rfl⟩
    simp
  · intro h
    have hnil : (monthlyExpenses txs y m).filter (fun t => t.category == c)
        = [] := by
      rw [List.filter_eq_nil_iff]
      intro t ht
      simpa using h t ht
    rw [expensesByCategory, hnil]
    rfl
  · intro amt
    constructor <;> simp [toEUR]

/-- The fallback currency rates (App.js line 50). -/
def exRates : Rates := ⟨1, 90⟩

/-- Witness for C7: a category budgeted at 100 with no expenses that
month still appears in the output, with actual 0. -/
theorem claim_C7_budget_variance_witness :
    (∃ r ∈ varianceRows exRates [("Grocery", (100 : ℚ))] [] 2024 5,
      r.category = "Grocery")
    ∧ expensesByCategory exRates [] 2024 5 "Grocery" = 0 := by
  have h := claim_C7_budget_variance exRates [("Grocery", (100 : ℚ))] []
    2024 5 "Grocery"
  exact ⟨h.1.mpr (Or.inl (by decide)), h.2.2.1 (by decide)⟩

/-- `threeYearsAgo.setFullYear(threeYearsAgo.getFullYear() - 3)`
(App.js lines 380-381): the same day-of-month three years earlier, with
the JS rollover for Feb 29. -/
def threeYearsBefore (d : YMD) : YMD :=
  normDay (d.year - 3) d.month d.day

/-- `autoDeleteOldTransactions` run on opening the History page with a
signed-in user (App.js lines 376-401): for each of the `transactions` and
`incomes` collections it queries `where("date", "<", cutoffDate)` (ISO
string order, which is `dateLt`) and batch-deletes every matching
document, keeping exactly the documents not strictly before the cutoff. -/
def autoDeleteOldTransactions (cutoffDate : YMD) (txs : List Transaction)
    (incs : List Income) : List Transaction × List Income :=
  (txs.filter (fun t => !(dateLt t.date cutoffDate)),
   incs.filter (fun i => !(dateLt i.date cutoffDate)))

/-- C6: opening the History page with an authenticated user deletes every
transaction and income dated strictly before the day three years prior to
the current date, so history is not retained indefinitely; and an
aggregate recomputed from full history silently changes when entries
cross the cutoff - concretely, a 50 EUR expense from 2020-01-01 makes the
June 2025 opening balance -50 before the cleanup and 0 after it (current
date 2025-10-12). -/
theorem claim_C6_retention_cutoff (now : YMD) (txs : List Transaction)
    (incs : List Income) :
    (∀ t : Transaction,
        t ∈ (autoDeleteOldTransactions (threeYearsBefore now) txs incs).1 ↔
        (t ∈ txs ∧ dateLt t.date (threeYearsBefore now) = false))
    ∧ (∀ i : Income,
        i ∈ (autoDeleteOldTransactions (threeYearsBefore now) txs incs).2 ↔
        (i ∈ incs ∧ dateLt i.date (threeYearsBefore now) = false))
    ∧ threeYearsBefore ⟨2025, 10, 12⟩ = ⟨2022, 10, 12⟩
    ∧ (calculateBalances
        [⟨⟨2020, 1, 1⟩, "expense", 50, "EUR", "Grocery", "", ""⟩] []
        2025 6 "EUR").opening = -50
    ∧ (calculateBalances
        (autoDeleteOldTransactions (threeYearsBefore ⟨2025, 10, 12⟩)
          [⟨⟨2020, 1, 1⟩, "expense", 50, "EUR", "Grocery", "", ""⟩] []).1 []
        2025 6 "EUR").opening = 0 := by
  refine ⟨?_, ?_, by decide, ?_, ?_⟩
  · intro t
    simp [autoDeleteOldTransactions, List.mem_filter]
  · intro i
    simp [autoDeleteOldTransactions, List.mem_filter]
  · norm_num [calculateBalances, sumBy, dateLt, isOutflowType,
      List.filter_cons] <;> decide
  · norm_num [calculateBalances, autoDeleteOldTransactions, sumBy, dateLt,
      threeYearsBefore, normDay, daysInMonth, isLeap, List.filter_cons] <;>
      decide

/-- A parsed CSV row as built by `handleFileChange` (App.js lines
575-580): `{date: row[0], description: row[1], debit: row[2],
credit: row[3]}`, with a missing cell (undefined, falsy) modelled as the
empty string. -/
structure CsvRow where
  date : String
  description : String
  debit : String
  credit : String
deriving DecidableEq, Repr

/-- JS truthiness of a CSV cell: the empty string (or a missing cell) is
falsy, every other string truthy. -/
def jsTruthy (s : String) : Bool := !(s == "")

/-- The parsing pipeline of `handleFileChange` (App.js lines 572-581):
skip the header row (`slice(1)`), extract the four columns, and keep a
row iff `row.date && (row.debit || row.credit)`.  The subsequent
DD/MM/YYYY-to-ISO reformatting (lines 583-587) maps the kept rows
one-to-one and does not affect which rows survive. -/
def parseCsvRows (rows : List (List String)) : List CsvRow :=
  ((rows.drop 1).map (fun row =>
    (⟨row.getD 0 "", row.getD 1 "", row.getD 2 "", row.getD 3 ""⟩ : CsvRow))).filter
    (fun r => jsTruthy r.date && (jsTruthy r.debit || jsTruthy r.credit))

def parseDigitsAux : List Char → Nat → Option Nat
  | [], acc => some acc
  | c :: cs, acc =>
    if c.isDigit then parseDigitsAux cs (acc * 10 + (c.toNat - '0'.toNat))
    else none

def parseDigits : List Char → Option Nat
  | [] => none
  | cs => parseDigitsAux cs 0

def splitFrac : List Char → List Char × Option (List Char)
  | [] => ([], none)
  | c :: cs =>
    if c = '.' then ([], some cs)
    else ((c :: (splitFrac cs).1), (splitFrac cs).2)

/-- Model of the JS `parseFloat` call of the import review (App.js line
552), restricted to the plain decimal strings a bank CSV carries: digits
with an optional fractional part; any other string parses to `none`
(NaN), and a NaN comparison `> 0` is false in JS just as `none` is read
as 0 below. -/
def parseDec (s : String) : Option ℚ :=
  match splitFrac s.data with
  | (a, none) => (parseDigits a).map (fun n => (n : ℚ))
  | (a, some b) =>
    match parseDigits a, parseDigits b with
    | some n, some f => some ((n : ℚ) + (f : ℚ) / ((10 : ℚ) ^ b.length))
    | _, _ => none

/-- The default transaction type of the import review (App.js lines
552-557): `isDebit = current.debit && parseFloat(current.debit) > 0`,
`type = isDebit ? 'expense' : 'income'`. -/
def defaultType (r : CsvRow) : String :=
  if jsTruthy r.debit && decide (0 < (parseDec r.debit).getD 0) then "expense"
  else "income"

/-- Definition following the words of claim C9 (not the code): a parsed
row is dropped if and only if it is missing both its date field and every
amount field, i.e. kept as soon as any of date, debit or credit is
present. -/
def claimKeptRows (rows : List (List String)) : List CsvRow :=
  ((rows.drop 1).map (fun row =>
    (⟨row.getD 0 "", row.getD 1 "", row.getD 2 "", row.getD 3 ""⟩ : CsvRow))).filter
    (fun r => jsTruthy r.date || jsTruthy r.debit || jsTruthy r.credit)

/-- A concrete CSV: a header, a row with a date but no amounts, a row
with an amount but no date, and a row with both debit and credit. -/
def exCsv : List (List String) :=
  [["Date", "Description", "Debit", "Credit"],
   ["01/02/2024", "fee", "", ""],
   ["", "refund", "5", ""],
   ["03/02/2024", "both", "5", "3"]]

/-- Counterexample to C9 as stated: the code keeps a row iff the date is
present AND some amount is present, not iff the row is not missing both;
the row ["01/02/2024", "fee", "", ""] (date, no amounts) and the row
["", "refund", "5", ""] (debit, no date) are both dropped although the
claim predicts they are kept; and the surviving row with credit "3" > 0
defaults to "expense" (its debit "5" wins), not "income" as the claim
predicts. -/
theorem claim_C9_counterexample :
    parseCsvRows exCsv ≠ claimKeptRows exCsv
    ∧ parseCsvRows exCsv = [⟨"03/02/2024", "both", "5", "3"⟩]
    ∧ claimKeptRows exCsv =
        [⟨"01/02/2024", "fee", "", ""⟩, ⟨"", "refund", "5", ""⟩,
         ⟨"03/02/2024", "both", "5", "3"⟩]
    ∧ (0 < (parseDec (⟨"03/02/2024", "both", "5", "3"⟩ : CsvRow).credit).getD 0
        ∧ defaultType ⟨"03/02/2024", "both", "5", "3"⟩ ≠ "income") := by
  decide

/-- C9 amended: CSV import drops a parsed row (after the header) iff the
row is missing its date field or missing every amount field; a surviving
row whose debit cell is present and parses positive defaults to type
expense, and every other surviving row (in particular one whose credit is
positive with no positive debit) defaults to type income. -/
theorem claim_C9_amended (rows : List (List String)) (r : CsvRow) :
    (r ∈ parseCsvRows rows ↔
      (r ∈ (rows.drop 1).map (fun row =>
          (⟨row.getD 0 "", row.getD 1 "", row.getD 2 "", row.getD 3 ""⟩ : CsvRow))
        ∧ jsTruthy r.date = true
        ∧ (jsTruthy r.debit || jsTruthy r.credit) = true))
    ∧ ((jsTruthy r.debit && decide (0 < (parseDec r.debit).getD 0)) = true →
        defaultType r = "expense")
    ∧ ((jsTruthy r.debit && decide (0 < (parseDec r.debit).getD 0)) = false →
        defaultType r = "income") := by
  refine ⟨?_, ?_, ?_⟩
  · rw [parseCsvRows, List.mem_filter]
    simp only [Bool.and_eq_true]
  · intro h
    simp [defaultType, h]
  · intro h
    simp [defaultType, h]

/-- Witness for C9's amended claim at the surviving row of the concrete
CSV. -/
theorem claim_C9_amended_witness :
    (⟨"03/02/2024", "both", "5", "3"⟩ : CsvRow) ∈ parseCsvRows exCsv
    ∧ defaultType ⟨"03/02/2024", "both", "5", "3"⟩ = "expense" := by
  have h := claim_C9_amended exCsv ⟨"03/02/2024", "both", "5", "3"⟩
  exact ⟨h.1.mpr ⟨by decide, by decide, by decide⟩, h.2.1 (by decide)⟩
